import Mathlib

/-!
Verification of the offline-first task synchronization engine
(`src/services/syncService.ts`, `src/services/taskService.ts`, the sync
routes and the sqlite schema) against its natural-language specification.

The embedding is shallow: rows of the sqlite tables become Lean structures,
the database state is a record of three lists, and each service method
becomes a pure state transformer.  Timestamps are modelled as integers
(the source stores ISO-8601 strings, which order exactly like the instants
they denote); the remote peer is an oracle mapping a queue item to either
success or an error message, mirroring the fact that each axios dispatch
either resolves or throws.
-/

namespace TaskSync

/-- Values of the `sync_status` column of the `tasks` table. -/
inductive SyncStatus where
  | pending
  | inProgress
  | synced
  | error
  | failed
deriving DecidableEq, Repr

/-- Operation kind of a sync-queue entry. -/
inductive Op where
  | create
  | update
  | delete
deriving DecidableEq, Repr

/-- A row of the `tasks` table (see `createTasksTable` in `database.ts`
and the `Task` shape built by `TaskService.createTask`). -/
structure Task where
  id : String
  title : String
  description : String
  completed : Bool
  is_deleted : Bool
  created_at : Int
  updated_at : Int
  sync_status : SyncStatus
  server_id : Option String
  last_synced_at : Option Int
deriving DecidableEq, Repr

/-- A row of the `sync_queue` table as consumed by `SyncService.sync`
(`id`, `task_id`, `operation`, serialized `data`, `attempts`,
`error_message`, `created_at`). -/
structure SyncQueueItem where
  id : String
  task_id : String
  operation : Op
  data : String
  attempts : Nat
  error_message : Option String
  created_at : Int
deriving DecidableEq, Repr

/-- A row of the `dead_letter_queue` table. -/
structure DeadLetterItem where
  id : String
  task_id : String
  operation : Op
  data : String
  error_message : String
  failed_at : Int
deriving DecidableEq, Repr

/-- One element of `SyncResult.errors`. -/
structure SyncError where
  task_id : String
  operation : Op
  error : String
  timestamp : Int
deriving DecidableEq, Repr

/-- The value returned by `SyncService.sync`. -/
structure SyncResult where
  success : Bool
  synced_items : Nat
  failed_items : Nat
  errors : List SyncError
deriving DecidableEq, Repr

/-- The persistent state: the three sqlite tables. -/
structure DB where
  tasks : List Task
  sync_queue : List SyncQueueItem
  dead_letter_queue : List DeadLetterItem
deriving DecidableEq, Repr

/-- The remote peer as seen by one dispatch in `SyncService.sync`: each
axios call either resolves (`none`) or throws with a message (`some msg`). -/
def Remote : Type := SyncQueueItem → Option String

/-- Model of `err.message || 'Unknown sync error'`: an empty message is falsy in
JavaScript and is replaced by the fallback text. -/
def errMsg (msg : String) : String :=
  if msg = "" then "Unknown sync error" else msg

/-- The row transformer of `TaskService.markTaskAsSynced`'s UPDATE: the row
whose `id` matches gets `sync_status = 'synced'` and both `last_synced_at`
and `updated_at` set to the current time; other rows are untouched. -/
def applySynced (taskId : String) (now : Int) (t : Task) : Task :=
  if t.id = taskId then
    { t with sync_status := SyncStatus.synced,
             last_synced_at := some now,
             updated_at := now }
  else t

/-- Model of `TaskService.markTaskAsSynced`: runs the UPDATE above over the `tasks`
table; the other two tables are not mentioned by the statement. -/
def markTaskAsSynced (db : DB) (taskId : String) (now : Int) : DB :=
  { db with tasks := db.tasks.map (applySynced taskId now) }

/-- The queue query of `SyncService.sync`:
`SELECT * FROM sync_queue WHERE attempts < 3 ORDER BY created_at ASC`. -/
def selectEligible (q : List SyncQueueItem) : List SyncQueueItem :=
  (q.filter (fun e => e.attempts < 3)).mergeSort
    (fun a b => a.created_at ≤ b.created_at)

/-- One iteration of the per-item loop in `SyncService.sync`, threading the
database together with the `syncedCount`, `failedCount` and `errors`
accumulators.  Success deletes the queue row and marks the task synced;
failure increments the row's `attempts`, stores the error message, and
appends a `SyncError`. -/
def processItem (remote : Remote) (now : Int)
    (acc : DB × Nat × Nat × List SyncError) (item : SyncQueueItem) :
    DB × Nat × Nat × List SyncError :=
  match remote item with
  | none =>
      (markTaskAsSynced
        { acc.1 with sync_queue := acc.1.sync_queue.filter (fun e => e.id ≠ item.id) }
        item.task_id now,
       acc.2.1 + 1, acc.2.2.1, acc.2.2.2)
  | some msg =>
      ({ acc.1 with sync_queue := acc.1.sync_queue.map (fun e =>
          if e.id = item.id then
            { e with attempts := e.attempts + 1, error_message := some (errMsg msg) }
          else e) },
       acc.2.1, acc.2.2.1 + 1,
       acc.2.2.2 ++ [{ task_id := item.task_id, operation := item.operation,
                       error := errMsg msg, timestamp := now }])

/-- The batching loop `for (let i = 0; i < queueItems.length; i += 50)`
together with `slice(i, i + 50)`: the snapshot of eligible rows split into
chunks of `SYNC_BATCH_SIZE = 50` in order. -/
def toBatches (l : List SyncQueueItem) : List (List SyncQueueItem) :=
  if h : l = [] then []
  else l.take 50 :: toBatches (l.drop 50)
termination_by l.length
decreasing_by
  simp only [List.length_drop]
  have := List.length_pos.mpr h
  omega

/-- Model of `SyncService.sync`: snapshot the eligible queue rows, return the empty
result if there are none, otherwise process every batch item by item and
aggregate the counters into a `SyncResult`. -/
def sync (remote : Remote) (now : Int) (db : DB) : SyncResult × DB :=
  let queueItems := selectEligible db.sync_queue
  if queueItems.length = 0 then
    ({ success := true, synced_items := 0, failed_items := 0, errors := [] }, db)
  else
    match (toBatches queueItems).foldl
        (fun acc batch => batch.foldl (processItem remote now) acc)
        (db, 0, 0, []) with
    | (db1, syncedCount, failedCount, errors) =>
      ({ success := failedCount == 0, synced_items := syncedCount,
         failed_items := failedCount, errors := errors }, db1)

/-- Lower-case hex digit, as produced by `toString(16)` style rendering. -/
def hexDigitChar (n : Nat) : Char :=
  if n < 10 then Char.ofNat (48 + n) else Char.ofNat (87 + n)

/-- The `JSON.stringify` escaping of one UTF-16-style code unit inside a string
literal (ECMA-262 QuoteJSONString): quote and backslash get two-character
escapes, the named control characters get theirs, remaining control
characters become `\u00xx`, everything else is copied verbatim. -/
def escChar (c : Char) : List Char :=
  if c = '"' then ['\\', '"']
  else if c = '\\' then ['\\', '\\']
  else if c.toNat = 8 then ['\\', 'b']
  else if c.toNat = 9 then ['\\', 't']
  else if c.toNat = 10 then ['\\', 'n']
  else if c.toNat = 12 then ['\\', 'f']
  else if c.toNat = 13 then ['\\', 'r']
  else if c.toNat < 32 then
    ['\\', 'u', '0', '0', hexDigitChar (c.toNat / 16), hexDigitChar (c.toNat % 16)]
  else [c]

/-- Escape every character of a string body. -/
def escape (l : List Char) : List Char := (l.map escChar).flatten

/-- The `JSON.stringify` image of a string value: the escaped body between quotes. -/
def jsonQuote (s : String) : String := ⟨'"' :: (escape s.data ++ ['"'])⟩

/-- Value of a lower-case hex digit, inverse of `hexDigitChar` below 16. -/
def hexVal (c : Char) : Nat :=
  if c.toNat ≥ 97 then c.toNat - 87 else c.toNat - 48

/-- Decoder for `escape`, used to show the escaping is collision-free. -/
def unescape : List Char → List Char
  | [] => []
  | c :: rest =>
    if c = '\\' then
      match rest with
      | [] => ['\\']
      | e :: rest1 =>
        if e = 'u' then
          match rest1 with
          | _ :: _ :: x :: y :: rest2 =>
              Char.ofNat (hexVal x * 16 + hexVal y) :: unescape rest2
          | short => '\\' :: 'u' :: unescape short
        else if e = '"' then '"' :: unescape rest1
        else if e = '\\' then '\\' :: unescape rest1
        else if e = 'b' then Char.ofNat 8 :: unescape rest1
        else if e = 't' then Char.ofNat 9 :: unescape rest1
        else if e = 'n' then Char.ofNat 10 :: unescape rest1
        else if e = 'f' then Char.ofNat 12 :: unescape rest1
        else if e = 'r' then Char.ofNat 13 :: unescape rest1
        else e :: unescape rest1
    else c :: unescape rest

/-- Rendering of `sync_status` values as stored in the database. -/
def statusText : SyncStatus → String
  | SyncStatus.pending => "pending"
  | SyncStatus.inProgress => "in-progress"
  | SyncStatus.synced => "synced"
  | SyncStatus.error => "error"
  | SyncStatus.failed => "failed"

/-- The `JSON.stringify` rendering of the task snapshot enqueued by `TaskService`
(timestamps already rendered in their sortable textual form). -/
def serializeTask (t : Task) : String :=
  "\x7b\"id\":" ++ jsonQuote t.id ++
  ",\"title\":" ++ jsonQuote t.title ++
  ",\"description\":" ++ jsonQuote t.description ++
  ",\"completed\":" ++ (if t.completed then "true" else "false") ++
  ",\"is_deleted\":" ++ (if t.is_deleted then "true" else "false") ++
  ",\"created_at\":" ++ jsonQuote (toString t.created_at) ++
  ",\"updated_at\":" ++ jsonQuote (toString t.updated_at) ++
  ",\"sync_status\":" ++ jsonQuote (statusText t.sync_status) ++
  (match t.server_id with
   | none => ""
   | some s => ",\"server_id\":" ++ jsonQuote s) ++
  (match t.last_synced_at with
   | none => ""
   | some n => ",\"last_synced_at\":" ++ jsonQuote (toString n)) ++ "\x7d"

/-- UTF-8 encoding of one scalar value, as `crypto.createHash(...).update`
applies to the checksum pre-image string. -/
def utf8Bytes (c : Char) : List Nat :=
  let n := c.toNat
  if n < 128 then [n]
  else if n < 2048 then
    [192 ||| (n >>> 6), 128 ||| (n &&& 63)]
  else if n < 65536 then
    [224 ||| (n >>> 12), 128 ||| ((n >>> 6) &&& 63), 128 ||| (n &&& 63)]
  else
    [240 ||| (n >>> 18), 128 ||| ((n >>> 12) &&& 63),
     128 ||| ((n >>> 6) &&& 63), 128 ||| (n &&& 63)]

/-- UTF-8 bytes of a string. -/
def strBytes (s : String) : List Nat := (s.data.map utf8Bytes).flatten

/-- The eight 32-bit working/digest registers of SHA-256. -/
structure Hash8 where
  a : Nat
  b : Nat
  c : Nat
  d : Nat
  e : Nat
  f : Nat
  g : Nat
  h : Nat
deriving DecidableEq, Repr

/-- SHA-256 round constants (decimal rendering of the 64 words). -/
def kConst : List Nat :=
  [1116352408, 1899447441, 3049323471, 3921009573,
   961987163, 1508970993, 2453635748, 2870763221,
   3624381080, 310598401, 607225278, 1426881987,
   1925078388, 2162078206, 2614888103, 3248222580,
   3835390401, 4022224774, 264347078, 604807628,
   770255983, 1249150122, 1555081692, 1996064986,
   2554220882, 2821834349, 2952996808, 3210313671,
   3336571891, 3584528711, 113926993, 338241895,
   666307205, 773529912, 1294757372, 1396182291,
   1695183700, 1986661051, 2177026350, 2456956037,
   2730485921, 2820302411, 3259730800, 3345764771,
   3516065817, 3600352804, 4094571909, 275423344,
   430227734, 506948616, 659060556, 883997877,
   958139571, 1322822218, 1537002063, 1747873779,
   1955562222, 2024104815, 2227730452, 2361852424,
   2428436474, 2756734187, 3204031479, 3329325298]

/-- SHA-256 initial hash value (decimal rendering of the 8 words). -/
def initHash : Hash8 :=
  ⟨1779033703, 3144134277, 1013904242, 2773480762,
   1359893119, 2600822924, 528734635, 1541459225⟩

/-- 32-bit right rotation. -/
def rotr (n w : Nat) : Nat := ((w >>> n) ||| (w <<< (32 - n))) % 4294967296

/-- 32-bit complement. -/
def bnot32 (w : Nat) : Nat := (w ^^^ 4294967295) % 4294967296

def smallSigma0 (w : Nat) : Nat := rotr 7 w ^^^ rotr 18 w ^^^ (w >>> 3)

def smallSigma1 (w : Nat) : Nat := rotr 17 w ^^^ rotr 19 w ^^^ (w >>> 10)

def bigSigma0 (w : Nat) : Nat := rotr 2 w ^^^ rotr 13 w ^^^ rotr 22 w

def bigSigma1 (w : Nat) : Nat := rotr 6 w ^^^ rotr 11 w ^^^ rotr 25 w

def chFn (x y z : Nat) : Nat := (x &&& y) ^^^ (bnot32 x &&& z)

def majFn (x y z : Nat) : Nat := (x &&& y) ^^^ (x &&& z) ^^^ (y &&& z)

/-- Big-endian 64-bit length field of the SHA-256 padding. -/
def be64 (n : Nat) : List Nat :=
  [(n >>> 56) % 256, (n >>> 48) % 256, (n >>> 40) % 256, (n >>> 32) % 256,
   (n >>> 24) % 256, (n >>> 16) % 256, (n >>> 8) % 256, n % 256]

/-- SHA-256 padding: append `0x80`, zero bytes to 56 mod 64, and the
bit length. -/
def padMessage (msg : List Nat) : List Nat :=
  let padLen := (64 - ((msg.length + 9) % 64)) % 64
  msg ++ 128 :: List.replicate padLen 0 ++ be64 (msg.length * 8)

/-- Split the padded message into 64-byte blocks. -/
def chunk64 (l : List Nat) : List (List Nat) :=
  if h : l = [] then []
  else l.take 64 :: chunk64 (l.drop 64)
termination_by l.length
decreasing_by
  simp only [List.length_drop]
  have := List.length_pos.mpr h
  omega

/-- Big-endian 32-bit words of a block. -/
def bytesToWords : List Nat → List Nat
  | b0 :: b1 :: b2 :: b3 :: rest =>
      (((b0 * 256 + b1) * 256 + b2) * 256 + b3) :: bytesToWords rest
  | _ => []

/-- Extend the 16 block words by `k` scheduled words. -/
def buildW (w : List Nat) : Nat → List Nat
  | 0 => w
  | k + 1 =>
    let w1 := buildW w k
    w1 ++ [(smallSigma1 (w1.getD (w1.length - 2) 0) + w1.getD (w1.length - 7) 0 +
            smallSigma0 (w1.getD (w1.length - 15) 0) + w1.getD (w1.length - 16) 0)
           % 4294967296]

/-- One SHA-256 compression round. -/
def shaRound (st : Hash8) (kt wt : Nat) : Hash8 :=
  let t1 := (st.h + bigSigma1 st.e + chFn st.e st.f st.g + kt + wt) % 4294967296
  let t2 := (bigSigma0 st.a + majFn st.a st.b st.c) % 4294967296
  ⟨(t1 + t2) % 4294967296, st.a, st.b, st.c, (st.d + t1) % 4294967296,
   st.e, st.f, st.g⟩

/-- Word-wise modular addition of the round result onto the running
hash, the final step of each SHA-256 block. -/
def addState (st r : Hash8) : Hash8 :=
  ⟨(st.a + r.a) % 4294967296, (st.b + r.b) % 4294967296,
   (st.c + r.c) % 4294967296, (st.d + r.d) % 4294967296,
   (st.e + r.e) % 4294967296, (st.f + r.f) % 4294967296,
   (st.g + r.g) % 4294967296, (st.h + r.h) % 4294967296⟩

/-- Compress one 64-byte block into the running hash. -/
def compressBlock (st : Hash8) (block : List Nat) : Hash8 :=
  addState st
    ((kConst.zip (buildW (bytesToWords block) 48)).foldl
      (fun s p => shaRound s p.1 p.2) st)

/-- SHA-256 of a byte sequence. -/
def sha256 (msg : List Nat) : Hash8 :=
  (chunk64 (padMessage msg)).foldl compressBlock initHash

/-- Lower-case hex rendering of one 32-bit word. -/
def wordHex (w : Nat) : List Char :=
  [hexDigitChar ((w >>> 28) % 16), hexDigitChar ((w >>> 24) % 16),
   hexDigitChar ((w >>> 20) % 16), hexDigitChar ((w >>> 16) % 16),
   hexDigitChar ((w >>> 12) % 16), hexDigitChar ((w >>> 8) % 16),
   hexDigitChar ((w >>> 4) % 16), hexDigitChar (w % 16)]

/-- Rendering `digest('hex')`: the 64-character digest string. -/
def hash8Hex (st : Hash8) : String :=
  ⟨wordHex st.a ++ wordHex st.b ++ wordHex st.c ++ wordHex st.d ++
   wordHex st.e ++ wordHex st.f ++ wordHex st.g ++ wordHex st.h⟩

/-- The contribution of one queue item to the checksum pre-image:
`item.id + JSON.stringify(item.data)`. -/
def itemChunk (it : SyncQueueItem) : List Char :=
  it.id.data ++ (jsonQuote it.data).data

/-- The string hashed by `calculateChecksum`:
`items.map(item => item.id + JSON.stringify(item.data)).join('')`. -/
def checksumPreimage (items : List SyncQueueItem) : List Char :=
  (items.map itemChunk).flatten

/-- Model of `SyncService.calculateChecksum`: the SHA-256 hex digest of the
pre-image string. -/
def calculateChecksum (items : List SyncQueueItem) : String :=
  hash8Hex (sha256 (strBytes ⟨checksumPreimage items⟩))

/-- Model of `verifyChecksum` of the batch route: recompute the same digest over the
received items and compare it with the transmitted checksum. -/
def verifyChecksum (items : List SyncQueueItem) (checksum : String) : Bool :=
  calculateChecksum items == checksum

/-- All-registers-below-2^32 invariant of the running hash. -/
def Hash8.lt32 (st : Hash8) : Prop :=
  st.a < 4294967296 ∧ st.b < 4294967296 ∧ st.c < 4294967296 ∧
  st.d < 4294967296 ∧ st.e < 4294967296 ∧ st.f < 4294967296 ∧
  st.g < 4294967296 ∧ st.h < 4294967296

/-- A 32-bit word as a bounded value, for counting digests. -/
def toW (n : Nat) : Fin 4294967296 := ⟨n % 4294967296, Nat.mod_lt n (by norm_num)⟩

/-- The digest read as a tuple of eight bounded words: SHA-256 can take at
most `4294967296 ^ 8 = 2 ^ 256` distinct values. -/
def digestFin (st : Hash8) :
    Fin 4294967296 × Fin 4294967296 × Fin 4294967296 × Fin 4294967296 ×
    Fin 4294967296 × Fin 4294967296 × Fin 4294967296 × Fin 4294967296 :=
  (toW st.a, toW st.b, toW st.c, toW st.d, toW st.e, toW st.f, toW st.g, toW st.h)

/-- An identifier fixture of prescribed length. -/
def idString (n : Nat) : String := ⟨List.replicate n 'a'⟩

/-- A single-item batch whose item differs from any other `probeItem` only
in its identifier. -/
def probeItem (n : Nat) : SyncQueueItem :=
  ⟨idString n, "T", Op.create, "p", 0, none, 0⟩

/-- The `{ title, description, completed }` patch object built by the PUT
route and passed to `TaskService.updateTask`. -/
structure TaskPatch where
  title : Option String
  description : Option String
  completed : Option Bool
deriving DecidableEq, Repr

/-- Model of `TaskService.updateTask`: look the task up with
`WHERE id = ? AND is_deleted = 0`; absent (or soft-deleted) rows yield
`null` with no write.  Otherwise merge the patch over the existing row
(`{...existing, ...updates}` restricted to the columns the UPDATE writes),
stamp `updated_at`/`sync_status`, and append an `update` entry to the sync
queue.  The INSERT names only `(operation_type, task_snapshot, attempts,
status)`: the row id comes from the autoincrement (modelled by `entryId`),
`created_at` from its default, and the omitted `task_id` column — NULL in
the store — is modelled as `""`. -/
def updateTask (db : DB) (id : String) (patch : TaskPatch) (now : Int)
    (entryId : String) : Option Task × DB :=
  match db.tasks.find? (fun t => t.id = id ∧ t.is_deleted = false) with
  | none => (none, db)
  | some existing =>
    let updated : Task := { existing with
      title := patch.title.getD existing.title,
      description := patch.description.getD existing.description,
      completed := patch.completed.getD existing.completed,
      updated_at := now,
      sync_status := SyncStatus.pending }
    let tasks1 := db.tasks.map (fun t =>
      if t.id = id then
        { t with title := updated.title, description := updated.description,
                 completed := updated.completed, updated_at := now,
                 sync_status := SyncStatus.pending }
      else t)
    let entry : SyncQueueItem :=
      { id := entryId, task_id := "", operation := Op.update,
        data := serializeTask updated, attempts := 0, error_message := none,
        created_at := now }
    (some updated, { db with tasks := tasks1, sync_queue := db.sync_queue ++ [entry] })

/-- Model of `TaskService.deleteTask`: look the task up with `WHERE id = ?` only —
the soft-delete flag is not consulted.  A missing row yields `false`;
otherwise the row is soft-deleted (`is_deleted = 1`, `updated_at` stamped,
`sync_status = 'pending'`), a tombstone snapshot is appended to the sync
queue as a `delete` entry (same INSERT shape as in `updateTask`), and
`true` is returned. -/
def deleteTask (db : DB) (id : String) (now : Int) (entryId : String) :
    Bool × DB :=
  match db.tasks.find? (fun t => t.id = id) with
  | none => (false, db)
  | some existing =>
    let tasks1 := db.tasks.map (fun t =>
      if t.id = id then
        { t with is_deleted := true, updated_at := now,
                 sync_status := SyncStatus.pending }
      else t)
    let snapshot : Task := { existing with
      is_deleted := true, updated_at := now, sync_status := SyncStatus.pending }
    let entry : SyncQueueItem :=
      { id := entryId, task_id := "", operation := Op.delete,
        data := serializeTask snapshot, attempts := 0, error_message := none,
        created_at := now }
    (true, { db with tasks := tasks1, sync_queue := db.sync_queue ++ [entry] })

/-- The database part of one `processItem` step, for stating how a cycle
transforms the state independently of the counters. -/
def stepDB (remote : Remote) (now : Int) (db : DB) (item : SyncQueueItem) : DB :=
  (processItem remote now (db, 0, 0, []) item).1

/-- The `SyncError` pushed for a failed item. -/
def mkSyncError (remote : Remote) (now : Int) (item : SyncQueueItem) : SyncError :=
  { task_id := item.task_id, operation := item.operation,
    error := errMsg ((remote item).getD ""), timestamp := now }

/-- Model of `SyncService.resolveConflict`: last-writer-wins on `updated_at`
(via `new Date(x).getTime()`), then the soft-deleted side on an exact tie,
then the local side.  The `priority` record bound in the source is dead
code (both lookups read the `update` key and neither local is used), so it
does not appear here. -/
def resolveConflict (localTask serverTask : Task) : Task :=
  if localTask.updated_at > serverTask.updated_at then localTask
  else if serverTask.updated_at > localTask.updated_at then serverTask
  else if localTask.is_deleted ∧ ¬ serverTask.is_deleted then localTask
  else if serverTask.is_deleted ∧ ¬ localTask.is_deleted then serverTask
  else localTask

/-- Concrete fixture for the exhaustion trace: the owning task. -/
def traceTask : Task :=
  ⟨"T", "title", "", false, false, 0, 0, SyncStatus.pending, none, none⟩

/-- Concrete fixture: the single queue entry, parameterized by its attempt
counter and stored error message. -/
def traceEntry (n : Nat) (em : Option String) : SyncQueueItem :=
  ⟨"Q1", "T", Op.update, "d", n, em, 0⟩

/-- Concrete fixture: the database holding the task and the entry. -/
def traceDB (n : Nat) (em : Option String) : DB :=
  ⟨[traceTask], [traceEntry n em], []⟩

/-- A remote peer that fails every dispatch with a transient error. -/
def alwaysFailRemote : Remote := fun _ => some "Network Error"

/-- A remote peer that is unreachable: every call throws a connection
error, which is what dispatching while offline looks like to `sync`. -/
def offlineRemote : Remote := fun _ => some "connect ECONNREFUSED"

/-- C3: conflict resolution returns the strictly newer version; on an exact
`updated_at` tie the soft-deleted version wins; when both or neither side is
deleted at equal timestamps the local version wins. -/
theorem resolveConflict_lww (l r : Task) :
    (l.updated_at > r.updated_at → resolveConflict l r = l) ∧
    (r.updated_at > l.updated_at → resolveConflict l r = r) ∧
    (l.updated_at = r.updated_at → l.is_deleted = true → r.is_deleted = false →
      resolveConflict l r = l) ∧
    (l.updated_at = r.updated_at → r.is_deleted = true → l.is_deleted = false →
      resolveConflict l r = r) ∧
    (l.updated_at = r.updated_at → (l.is_deleted = r.is_deleted) →
      resolveConflict l r = l) := by
  unfold resolveConflict
  refine ⟨?_, ?_, ?_, ?_, ?_⟩
  · intro h; simp [h]
  · intro h
    have h' : ¬ l.updated_at > r.updated_at := by omega
    simp [h, h']
  · intro he hl hr
    have h1 : ¬ l.updated_at > r.updated_at := by omega
    have h2 : ¬ r.updated_at > l.updated_at := by omega
    simp [h1, h2, hl, hr]
  · intro he hr hl
    have h1 : ¬ l.updated_at > r.updated_at := by omega
    have h2 : ¬ r.updated_at > l.updated_at := by omega
    simp [h1, h2, hl, hr]
  · intro he hd
    have h1 : ¬ l.updated_at > r.updated_at := by omega
    have h2 : ¬ r.updated_at > l.updated_at := by omega
    rcases hb : l.is_deleted <;> simp [h1, h2, hb, hd ▸ hb, ← hd]

/-- Witness for C3 at concrete tasks: a newer local version wins, and on a
tie a soft-deleted local version wins over a live remote one. -/
theorem resolveConflict_lww_witness :
    let mk : Int → Bool → Task := fun u d =>
      { id := "t1", title := "a", description := "", completed := false,
        is_deleted := d, created_at := 0, updated_at := u,
        sync_status := SyncStatus.pending, server_id := none,
        last_synced_at := none }
    resolveConflict (mk 5 false) (mk 3 false) = mk 5 false ∧
    resolveConflict (mk 3 true) (mk 3 false) = mk 3 true := by
  intro mk
  refine ⟨(resolveConflict_lww (mk 5 false) (mk 3 false)).1 (by decide), ?_⟩
  exact (resolveConflict_lww (mk 3 true) (mk 3 false)).2.2.1 rfl rfl rfl

theorem toBatches_flatten (l : List SyncQueueItem) : (toBatches l).flatten = l := by
  rw [toBatches]
  by_cases h : l = []
  · simp [h]
  · simp only [dif_neg h, List.flatten_cons, toBatches_flatten (l.drop 50),
      List.take_append_drop]
termination_by l.length
decreasing_by
  simp only [List.length_drop]
  have := List.length_pos.mpr h
  omega

theorem foldl_toBatches (f : DB × Nat × Nat × List SyncError → SyncQueueItem →
    DB × Nat × Nat × List SyncError) (b : DB × Nat × Nat × List SyncError)
    (l : List SyncQueueItem) :
    (toBatches l).foldl (fun acc batch => batch.foldl f acc) b = l.foldl f b := by
  conv_rhs => rw [← toBatches_flatten l]
  exact (List.foldl_flatten f b (toBatches l)).symm

theorem processItem_eq (remote : Remote) (now : Int) (db : DB) (s f : Nat)
    (errs : List SyncError) (item : SyncQueueItem) :
    processItem remote now (db, s, f, errs) item =
      (stepDB remote now db item,
       s + (if (remote item).isSome then 0 else 1),
       f + (if (remote item).isSome then 1 else 0),
       errs ++ (if (remote item).isSome then [mkSyncError remote now item] else [])) := by
  cases h : remote item <;> simp [processItem, stepDB, mkSyncError, h]

theorem foldl_processItem_spec (remote : Remote) (now : Int)
    (items : List SyncQueueItem) :
    ∀ (db : DB) (s f : Nat) (errs : List SyncError),
    items.foldl (processItem remote now) (db, s, f, errs) =
      (items.foldl (stepDB remote now) db,
       s + items.countP (fun it => !(remote it).isSome),
       f + items.countP (fun it => (remote it).isSome),
       errs ++ (items.filter (fun it => (remote it).isSome)).map
         (mkSyncError remote now)) := by
  induction items with
  | nil => intro db s f errs; simp
  | cons it rest ih =>
    intro db s f errs
    rw [List.foldl_cons, processItem_eq, ih]
    cases h : remote it <;>
      simp [h, List.countP_cons, List.filter_cons, Prod.mk.injEq] <;> omega

theorem sync_characterization (remote : Remote) (now : Int) (db : DB) :
    let el := selectEligible db.sync_queue
    sync remote now db =
      (if el.length = 0 then
        ({ success := true, synced_items := 0, failed_items := 0, errors := [] }, db)
       else
        ({ success := el.countP (fun it => (remote it).isSome) == 0,
           synced_items := el.countP (fun it => !(remote it).isSome),
           failed_items := el.countP (fun it => (remote it).isSome),
           errors := (el.filter (fun it => (remote it).isSome)).map
             (mkSyncError remote now) },
         el.foldl (stepDB remote now) db)) := by
  intro el
  unfold sync
  by_cases h : el.length = 0
  · simp [el] at h
    simp [el, h]
  · simp only [el] at h ⊢
    rw [if_neg h, if_neg h, foldl_toBatches, foldl_processItem_spec]
    simp

/-- C5: the cycle's dispatch list `selectEligible` contains exactly the
queue entries with `attempts < 3`, sorted by `created_at` ascending, so an
entry with a strictly earlier `created_at` (for example an update enqueued
before a delete against the same task) is dispatched at a strictly earlier
position.  `sync` folds over exactly this list, in this order. -/
theorem selectEligible_dispatch_order (q : List SyncQueueItem) :
    (∀ e ∈ selectEligible q, e.attempts < 3) ∧
    (∀ e ∈ q, e.attempts < 3 → e ∈ selectEligible q) ∧
    (∀ i j : Fin (selectEligible q).length, i ≤ j →
      ((selectEligible q).get i).created_at ≤ ((selectEligible q).get j).created_at) ∧
    (∀ i j : Fin (selectEligible q).length,
      ((selectEligible q).get i).created_at < ((selectEligible q).get j).created_at →
      i < j) := by
  have hperm := List.mergeSort_perm (q.filter (fun e => e.attempts < 3))
    (fun a b => a.created_at ≤ b.created_at)
  have hmem : ∀ e, e ∈ selectEligible q ↔ e ∈ q.filter (fun e => e.attempts < 3) :=
    fun e => hperm.mem_iff
  have htrans : ∀ a b c : SyncQueueItem,
      (decide (a.created_at ≤ b.created_at)) = true →
      (decide (b.created_at ≤ c.created_at)) = true →
      (decide (a.created_at ≤ c.created_at)) = true := by
    intro a b c hab hbc
    simp only [decide_eq_true_eq] at *
    omega
  have htotal : ∀ a b : SyncQueueItem,
      ((decide (a.created_at ≤ b.created_at)) ||
       (decide (b.created_at ≤ a.created_at))) = true := by
    intro a b
    simp [Bool.or_eq_true, decide_eq_true_eq]
    omega
  have hsorted := List.sorted_mergeSort htrans htotal
    (q.filter (fun e => e.attempts < 3))
  have hget := List.pairwise_iff_get.mp hsorted
  have h3 : ∀ i j : Fin (selectEligible q).length, i ≤ j →
      ((selectEligible q).get i).created_at ≤ ((selectEligible q).get j).created_at := by
    intro i j hij
    rcases lt_or_eq_of_le hij with hlt | heq
    · have := hget i j hlt
      simpa [decide_eq_true_eq] using this
    · rw [heq]
  refine ⟨?_, ?_, h3, ?_⟩
  · intro e he
    have := (hmem e).mp he
    have := (List.mem_filter.mp this).2
    simpa [decide_eq_true_eq] using this
  · intro e he ha
    exact (hmem e).mpr (List.mem_filter.mpr ⟨he, by simpa using ha⟩)
  · intro i j hlt
    by_contra hne
    push_neg at hne
    have := h3 j i hne
    omega

/-- Witness for C5: with one eligible and one exhausted entry, the eligible
one is dispatched and satisfies the attempts bound. -/
theorem selectEligible_dispatch_order_witness :
    let ea : SyncQueueItem := ⟨"a", "T", Op.update, "d", 0, none, 5⟩
    let eb : SyncQueueItem := ⟨"b", "T", Op.delete, "d", 3, none, 1⟩
    ea ∈ selectEligible [ea, eb] ∧ ea.attempts < 3 := by
  intro ea eb
  refine ⟨(selectEligible_dispatch_order [ea, eb]).2.1 ea (by decide) (by decide), ?_⟩
  exact (selectEligible_dispatch_order [ea, eb]).1 ea
    ((selectEligible_dispatch_order [ea, eb]).2.1 ea (by decide) (by decide))

theorem sync_no_eligible (remote : Remote) (now : Int) (db : DB)
    (h : ∀ e ∈ db.sync_queue, 3 ≤ e.attempts) :
    sync remote now db =
      ({ success := true, synced_items := 0, failed_items := 0, errors := [] }, db) := by
  have hfil : db.sync_queue.filter (fun e => e.attempts < 3) = [] := by
    rw [List.filter_eq_nil_iff]
    intro e he
    have := h e he
    simp only [decide_eq_true_eq]
    omega
  have hel : selectEligible db.sync_queue = [] := by
    unfold selectEligible
    rw [hfil, List.mergeSort_nil]
  simp [sync, hel]

theorem selectEligible_single (e : SyncQueueItem) (he : e.attempts < 3) :
    selectEligible [e] = [e] := by
  unfold selectEligible
  have hf : [e].filter (fun x => x.attempts < 3) = [e] := by
    simp [List.filter_cons, he]
  rw [hf]
  exact List.perm_singleton.mp
    (List.mergeSort_perm [e] (fun a b => a.created_at ≤ b.created_at))

theorem sync_one_entry_fail (remote : Remote) (now : Int) (db : DB)
    (e : SyncQueueItem) (msg : String) (hq : db.sync_queue = [e])
    (he : e.attempts < 3) (hr : remote e = some msg) (hm : msg ≠ "") :
    sync remote now db =
      ({ success := false, synced_items := 0, failed_items := 1,
         errors := [⟨e.task_id, e.operation, msg, now⟩] },
       ⟨db.tasks,
        [{ e with attempts := e.attempts + 1, error_message := some msg }],
        db.dead_letter_queue⟩) := by
  have hc := sync_characterization remote now db
  simp only [hq, selectEligible_single e he] at hc
  rw [hc]
  simp [hr, List.countP_cons, List.filter_cons, mkSyncError, errMsg, hm,
    stepDB, processItem, hq]

/-- C6: when no queue entry is eligible (in particular when the queue is
empty), a sync cycle returns `{success := true, synced_items := 0,
failed_items := 0, errors := []}` and leaves the whole database state —
queue, dead-letter store and every task — unchanged. -/
theorem sync_idle_noop (remote : Remote) (now : Int) (db : DB)
    (h : ∀ e ∈ db.sync_queue, 3 ≤ e.attempts) :
    sync remote now db =
      ({ success := true, synced_items := 0, failed_items := 0, errors := [] }, db) :=
  sync_no_eligible remote now db h

/-- Witness for C6: a queue holding only an exhausted entry is left
untouched and the empty result is returned. -/
theorem sync_idle_noop_witness :
    let e3 : SyncQueueItem := ⟨"q", "T", Op.update, "d", 3, some "boom", 0⟩
    let db : DB := ⟨[], [e3], []⟩
    sync (fun _ => none) 7 db =
      ({ success := true, synced_items := 0, failed_items := 0, errors := [] }, db) := by
  intro e3 db
  exact sync_idle_noop (fun _ => none) 7 db (by decide)

/-- C7: the returned `SyncResult` counts exactly the successful and failed
dispatches of the cycle, its `success` flag is true iff no item failed, and
its `errors` list holds one `SyncError` per failed item, in dispatch
order. -/
theorem sync_result_accounting (remote : Remote) (now : Int) (db : DB) :
    ((sync remote now db).1.synced_items
        = (selectEligible db.sync_queue).countP (fun it => !(remote it).isSome)) ∧
    ((sync remote now db).1.failed_items
        = (selectEligible db.sync_queue).countP (fun it => (remote it).isSome)) ∧
    ((sync remote now db).1.errors
        = ((selectEligible db.sync_queue).filter (fun it => (remote it).isSome)).map
            (mkSyncError remote now)) ∧
    ((sync remote now db).1.success = true ↔ (sync remote now db).1.failed_items = 0) := by
  have hc := sync_characterization remote now db
  simp only at hc
  rw [hc]
  by_cases hl : (selectEligible db.sync_queue).length = 0
  · have he : selectEligible db.sync_queue = [] := List.length_eq_zero.mp hl
    simp [hl, he]
  · simp [hl, beq_iff_eq]

theorem countP_not_add (p : SyncQueueItem → Bool) (l : List SyncQueueItem) :
    l.countP (fun a => !(p a)) + l.countP p = l.length := by
  induction l with
  | nil => rfl
  | cons a t ih => cases h : p a <;> simp [List.countP_cons, h] <;> omega

/-- C8: an individual item failure never aborts the cycle: every eligible
entry is accounted for in the returned result (`synced + failed` equals the
number of dispatched entries) and every failed item contributes exactly one
entry to the error list. -/
theorem sync_reports_every_item (remote : Remote) (now : Int) (db : DB) :
    ((sync remote now db).1.synced_items + (sync remote now db).1.failed_items
        = (selectEligible db.sync_queue).length) ∧
    ((sync remote now db).1.errors.length = (sync remote now db).1.failed_items) := by
  have hc := sync_characterization remote now db
  simp only at hc
  rw [hc]
  by_cases hl : (selectEligible db.sync_queue).length = 0
  · have he : selectEligible db.sync_queue = [] := List.length_eq_zero.mp hl
    simp [hl, he]
  · rw [if_neg hl]
    refine ⟨?_, ?_⟩
    · exact countP_not_add (fun it => (remote it).isSome) (selectEligible db.sync_queue)
    · rw [List.length_map]
      exact (List.countP_eq_length_filter _ _).symm

/-- C1 (refuted on the code): with a remote that fails transiently on every
dispatch, three sync cycles retry the entry exactly three times
(`failed_items = 1` in each cycle), but the exhausted entry then remains in
the sync queue with `attempts = 3` instead of appearing in the dead-letter
store, the dead-letter store stays empty, and the owning task keeps
`sync_status = pending` — the failure branch of `sync` only updates the
queue row and never invokes the `handleSyncError` escalation, which is
never called in the source.  A fourth cycle finds no eligible entry and
changes nothing. -/
theorem sync_retry_never_dead_letters :
    (sync alwaysFailRemote 1 (traceDB 0 none) =
      ({ success := false, synced_items := 0, failed_items := 1,
         errors := [⟨"T", Op.update, "Network Error", 1⟩] },
       traceDB 1 (some "Network Error"))) ∧
    (sync alwaysFailRemote 2 (traceDB 1 (some "Network Error")) =
      ({ success := false, synced_items := 0, failed_items := 1,
         errors := [⟨"T", Op.update, "Network Error", 2⟩] },
       traceDB 2 (some "Network Error"))) ∧
    (sync alwaysFailRemote 3 (traceDB 2 (some "Network Error")) =
      ({ success := false, synced_items := 0, failed_items := 1,
         errors := [⟨"T", Op.update, "Network Error", 3⟩] },
       traceDB 3 (some "Network Error"))) ∧
    (sync alwaysFailRemote 4 (traceDB 3 (some "Network Error")) =
      ({ success := true, synced_items := 0, failed_items := 0, errors := [] },
       traceDB 3 (some "Network Error"))) ∧
    (traceDB 3 (some "Network Error")).sync_queue.countP (fun e => e.id = "Q1") = 1 ∧
    (traceDB 3 (some "Network Error")).dead_letter_queue = [] ∧
    (traceDB 3 (some "Network Error")).tasks.map Task.sync_status =
      [SyncStatus.pending] := by
  refine ⟨?_, ?_, ?_, ?_, by rfl, rfl, rfl⟩
  · exact sync_one_entry_fail alwaysFailRemote 1 (traceDB 0 none)
      (traceEntry 0 none) "Network Error" rfl (by norm_num [traceEntry]) rfl
      (by simp)
  · exact sync_one_entry_fail alwaysFailRemote 2 (traceDB 1 (some "Network Error"))
      (traceEntry 1 (some "Network Error")) "Network Error" rfl
      (by norm_num [traceEntry]) rfl (by simp)
  · exact sync_one_entry_fail alwaysFailRemote 3 (traceDB 2 (some "Network Error"))
      (traceEntry 2 (some "Network Error")) "Network Error" rfl
      (by norm_num [traceEntry]) rfl (by simp)
  · exact sync_no_eligible alwaysFailRemote 4 (traceDB 3 (some "Network Error"))
      (by intro e he; simp [traceDB, traceEntry] at he; simp [he, traceEntry])

/-- C2 (refuted on the code): `sync` takes no connectivity gate — the
`checkConnectivity` probe is never consulted by the cycle.  When the remote
peer is unreachable (every dispatch throws), the cycle still dispatches the
queue: the entry's attempt counter is incremented from 0 to 1 and the
returned result carries a per-item dispatch error, not a single
connectivity error with untouched counters. -/
theorem sync_offline_increments_attempts :
    sync offlineRemote 1 (traceDB 0 none) =
      ({ success := false, synced_items := 0, failed_items := 1,
         errors := [⟨"T", Op.update, "connect ECONNREFUSED", 1⟩] },
       traceDB 1 (some "connect ECONNREFUSED")) := by
  exact sync_one_entry_fail offlineRemote 1 (traceDB 0 none)
    (traceEntry 0 none) "connect ECONNREFUSED" rfl (by norm_num [traceEntry]) rfl
    (by simp)

/-- C9: `markTaskAsSynced` rewrites only the matching task, setting
`sync_status = 'synced'`, `last_synced_at = now` — and also `updated_at =
now`, clobbering the timestamp of the last local edit that conflict
resolution compares; every other field and every other row and table is
unchanged. -/
theorem markTaskAsSynced_frame (db : DB) (taskId : String) (now : Int) :
    (markTaskAsSynced db taskId now).sync_queue = db.sync_queue ∧
    (markTaskAsSynced db taskId now).dead_letter_queue = db.dead_letter_queue ∧
    (markTaskAsSynced db taskId now).tasks = db.tasks.map (applySynced taskId now) ∧
    ∀ t : Task,
      (t.id = taskId →
        (applySynced taskId now t).sync_status = SyncStatus.synced ∧
        (applySynced taskId now t).last_synced_at = some now ∧
        (applySynced taskId now t).updated_at = now ∧
        (applySynced taskId now t).id = t.id ∧
        (applySynced taskId now t).title = t.title ∧
        (applySynced taskId now t).description = t.description ∧
        (applySynced taskId now t).completed = t.completed ∧
        (applySynced taskId now t).is_deleted = t.is_deleted ∧
        (applySynced taskId now t).created_at = t.created_at ∧
        (applySynced taskId now t).server_id = t.server_id) ∧
      (t.id ≠ taskId → applySynced taskId now t = t) := by
  refine ⟨rfl, rfl, rfl, ?_⟩
  intro t
  constructor
  · intro h
    simp [applySynced, h]
  · intro h
    simp [applySynced, h]

/-- Witness for C9: a task last edited at time 42 is stamped to the sync
time 100, its edit timestamp discarded, while an unrelated task is left
alone. -/
theorem markTaskAsSynced_frame_witness :
    let t : Task := ⟨"T", "x", "", false, false, 0, 42, SyncStatus.pending, none, none⟩
    let u : Task := ⟨"U", "y", "", false, false, 0, 7, SyncStatus.pending, none, none⟩
    (applySynced "T" 100 t).updated_at = 100 ∧
    (applySynced "T" 100 t).sync_status = SyncStatus.synced ∧
    (applySynced "T" 100 t).last_synced_at = some 100 ∧
    (applySynced "T" 100 t).title = t.title ∧
    applySynced "T" 100 u = u := by
  intro t u
  have h := (markTaskAsSynced_frame ⟨[t, u], [], []⟩ "T" 100).2.2.2
  obtain ⟨h1, h2, h3, _, h5, _⟩ := (h t).1 rfl
  exact ⟨h3, h1, h2, h5, (h u).2 (by decide)⟩

/-- C10: `deleteTask` looks its row up without filtering on `is_deleted`,
so it returns `true` for any existing row — including an already
soft-deleted one — and appends a further `delete` entry to the sync queue;
`updateTask` filters with `AND is_deleted = 0`, so on a soft-deleted task
it returns `null` and performs no write at all. -/
theorem deleteTask_vs_updateTask_on_tombstone (db : DB) (id : String)
    (patch : TaskPatch) (now : Int) (entryId : String) (t : Task)
    (hfind : db.tasks.find? (fun u => u.id = id) = some t) :
    ((deleteTask db id now entryId).1 = true) ∧
    ((deleteTask db id now entryId).2.sync_queue = db.sync_queue ++
      [⟨entryId, "", Op.delete,
        serializeTask { t with is_deleted := true, updated_at := now,
                               sync_status := SyncStatus.pending },
        0, none, now⟩]) ∧
    ((∀ u ∈ db.tasks, u.id = id → u.is_deleted = true) →
      updateTask db id patch now entryId = (none, db)) := by
  refine ⟨?_, ?_, ?_⟩
  · simp [deleteTask, hfind]
  · simp [deleteTask, hfind]
  · intro hall
    have hnone : db.tasks.find? (fun u => decide (u.id = id) && !u.is_deleted) = none := by
      rw [List.find?_eq_none]
      intro x hx
      simp only [Bool.and_eq_true, decide_eq_true_eq, Bool.not_eq_true', not_and]
      intro hxid
      simp [hall x hx hxid]
    simp [updateTask, hnone]

/-- Witness for C10: on a database whose only task is a tombstone,
`deleteTask` still reports success (and the queue grew by one `delete`
entry), while `updateTask` is a no-op returning `null`. -/
theorem deleteTask_vs_updateTask_on_tombstone_witness :
    let td : Task := ⟨"T", "x", "", false, true, 0, 5, SyncStatus.pending, none, none⟩
    let db0 : DB := ⟨[td], [], []⟩
    (deleteTask db0 "T" 9 "E").1 = true ∧
    (deleteTask db0 "T" 9 "E").2.sync_queue.length = 1 ∧
    updateTask db0 "T" ⟨none, none, none⟩ 9 "E" = (none, db0) := by
  intro td db0
  have h := deleteTask_vs_updateTask_on_tombstone db0 "T" ⟨none, none, none⟩ 9 "E" td
    (by decide)
  refine ⟨h.1, ?_, h.2.2 (by decide)⟩
  rw [h.2.1]
  rfl

theorem hexVal_hexDigitChar (m : Nat) (h : m < 16) :
    hexVal (hexDigitChar m) = m := by
  interval_cases m <;> decide

theorem unescape_escChar (c : Char) (rest : List Char) :
    unescape (escChar c ++ rest) = c :: unescape rest := by
  by_cases h1 : c = '"'
  · subst h1
    conv_lhs => rw [unescape.eq_def]
    rfl
  · by_cases h2 : c = '\\'
    · subst h2
      conv_lhs => rw [unescape.eq_def]
      rfl
    · by_cases h3 : c.toNat = 8
      · have hc : c = Char.ofNat 8 := by rw [← h3, Char.ofNat_toNat]
        rw [hc]
        conv_lhs => rw [unescape.eq_def]
        rfl
      · by_cases h4 : c.toNat = 9
        · have hc : c = Char.ofNat 9 := by rw [← h4, Char.ofNat_toNat]
          rw [hc]
          conv_lhs => rw [unescape.eq_def]
          rfl
        · by_cases h5 : c.toNat = 10
          · have hc : c = Char.ofNat 10 := by rw [← h5, Char.ofNat_toNat]
            rw [hc]
            conv_lhs => rw [unescape.eq_def]
            rfl
          · by_cases h6 : c.toNat = 12
            · have hc : c = Char.ofNat 12 := by rw [← h6, Char.ofNat_toNat]
              rw [hc]
              conv_lhs => rw [unescape.eq_def]
              rfl
            · by_cases h7 : c.toNat = 13
              · have hc : c = Char.ofNat 13 := by rw [← h7, Char.ofNat_toNat]
                rw [hc]
                conv_lhs => rw [unescape.eq_def]
                rfl
              · by_cases h8 : c.toNat < 32
                · have hda : c.toNat / 16 < 16 := by omega
                  have hdb : c.toNat % 16 < 16 := Nat.mod_lt _ (by norm_num)
                  have hsum : c.toNat / 16 * 16 + c.toNat % 16 = c.toNat := by omega
                  have hesc : escChar c = ['\\', 'u', '0', '0',
                      hexDigitChar (c.toNat / 16), hexDigitChar (c.toNat % 16)] := by
                    simp [escChar, h1, h2, h3, h4, h5, h6, h7, h8]
                  rw [hesc]
                  conv_lhs => rw [unescape.eq_def]
                  show Char.ofNat (hexVal (hexDigitChar (c.toNat / 16)) * 16 +
                      hexVal (hexDigitChar (c.toNat % 16))) :: unescape rest =
                    c :: unescape rest
                  rw [hexVal_hexDigitChar _ hda, hexVal_hexDigitChar _ hdb, hsum,
                    Char.ofNat_toNat]
                · have hesc : escChar c = [c] := by
                    simp [escChar, h1, h2, h3, h4, h5, h6, h7, h8]
                  rw [hesc]
                  conv_lhs => rw [unescape.eq_def]
                  simp only [List.cons_append, List.nil_append, if_neg h2]

theorem unescape_escape (l : List Char) : unescape (escape l) = l := by
  induction l with
  | nil => rfl
  | cons c t ih =>
    have : escape (c :: t) = escChar c ++ escape t := by
      simp [escape]
    rw [this, unescape_escChar, ih]

theorem escape_inj (a b : List Char) (h : escape a = escape b) : a = b := by
  have := congrArg unescape h
  rwa [unescape_escape, unescape_escape] at this

theorem jsonQuote_inj (s t : String) (h : jsonQuote s = jsonQuote t) : s = t := by
  have hd := congrArg String.data h
  simp only [jsonQuote] at hd
  have h2 : escape s.data ++ ['"'] = escape t.data ++ ['"'] := by
    injection hd
  have h3 := List.append_cancel_right h2
  exact String.ext (escape_inj _ _ h3)

theorem addState_lt32 (st r : Hash8) : (addState st r).lt32 :=
  ⟨Nat.mod_lt _ (by norm_num), Nat.mod_lt _ (by norm_num),
   Nat.mod_lt _ (by norm_num), Nat.mod_lt _ (by norm_num),
   Nat.mod_lt _ (by norm_num), Nat.mod_lt _ (by norm_num),
   Nat.mod_lt _ (by norm_num), Nat.mod_lt _ (by norm_num)⟩

theorem compressBlock_lt32 (st : Hash8) (block : List Nat) :
    (compressBlock st block).lt32 := by
  unfold compressBlock
  exact addState_lt32 _ _

theorem sha256_lt32 (msg : List Nat) : (sha256 msg).lt32 := by
  have hinit : initHash.lt32 := by
    refine ⟨?_, ?_, ?_, ?_, ?_, ?_, ?_, ?_⟩ <;> norm_num [initHash]
  have hfold : ∀ (bs : List (List Nat)) (st : Hash8), st.lt32 →
      (bs.foldl compressBlock st).lt32 := by
    intro bs
    induction bs with
    | nil => intro st h; exact h
    | cons b t ih =>
      intro st h
      rw [List.foldl_cons]
      exact ih _ (compressBlock_lt32 st b)
  unfold sha256
  exact hfold _ _ hinit

theorem toW_inj (x y : Nat) (hx : x < 4294967296) (hy : y < 4294967296)
    (h : toW x = toW y) : x = y := by
  have := congrArg Fin.val h
  simp only [toW] at this
  rwa [Nat.mod_eq_of_lt hx, Nat.mod_eq_of_lt hy] at this

theorem hash8Hex_eq_of_digestFin (s t : Hash8) (hs : s.lt32) (ht : t.lt32)
    (h : digestFin s = digestFin t) : hash8Hex s = hash8Hex t := by
  obtain ⟨hs1, hs2, hs3, hs4, hs5, hs6, hs7, hs8⟩ := hs
  obtain ⟨ht1, ht2, ht3, ht4, ht5, ht6, ht7, ht8⟩ := ht
  simp only [digestFin, Prod.mk.injEq] at h
  obtain ⟨e1, e2, e3, e4, e5, e6, e7, e8⟩ := h
  rw [hash8Hex, hash8Hex,
    toW_inj _ _ hs1 ht1 e1, toW_inj _ _ hs2 ht2 e2, toW_inj _ _ hs3 ht3 e3,
    toW_inj _ _ hs4 ht4 e4, toW_inj _ _ hs5 ht5 e5, toW_inj _ _ hs6 ht6 e6,
    toW_inj _ _ hs7 ht7 e7, toW_inj _ _ hs8 ht8 e8]

theorem idString_inj (m n : Nat) (h : idString m = idString n) : m = n := by
  have hd := congrArg String.data h
  simp only [idString] at hd
  have := congrArg List.length hd
  simpa using this

/-- C4 (counterexample): as literally stated — "for every item list,
mutating any single item's identifier yields a different checksum" — the
claim is false: the digest has only `2 ^ 256` possible values, so by the
pigeonhole principle there exist two single-item batches that differ only
in the item's identifier yet share the same SHA-256 checksum.  No concrete
collision is known, but the universal statement cannot hold. -/
theorem calculateChecksum_not_injective :
    ∃ m n : Nat, (probeItem m).id ≠ (probeItem n).id ∧
      calculateChecksum [probeItem m] = calculateChecksum [probeItem n] := by
  have hlt : Fintype.card
        (Fin 4294967296 × Fin 4294967296 × Fin 4294967296 × Fin 4294967296 ×
         Fin 4294967296 × Fin 4294967296 × Fin 4294967296 × Fin 4294967296) <
      Fintype.card (Fin (4294967296 ^ 8 + 1)) := by
    simp only [Fintype.card_prod, Fintype.card_fin]
    norm_num [pow_succ]
  obtain ⟨m, n, hmn, heq⟩ :=
    Fintype.exists_ne_map_eq_of_card_lt
      (fun a : Fin (4294967296 ^ 8 + 1) =>
        digestFin (sha256 (strBytes ⟨checksumPreimage [probeItem a.val]⟩)))
      hlt
  refine ⟨m.val, n.val, ?_, ?_⟩
  · intro hid
    exact hmn (Fin.ext (idString_inj m.val n.val hid))
  · exact hash8Hex_eq_of_digestFin _ _ (sha256_lt32 _) (sha256_lt32 _) heq

/-- C4 (amended): the checksum is a pure function of the item list, so it
is deterministic; the hashed pre-image — the concatenation of each item's
identifier and serialized payload — *does* change whenever a single item's
identifier or payload is mutated, so a tampered batch is rejected by the
server-side `verifyChecksum` unless the tampering produces a SHA-256
collision (which exists by counting but is not known concretely); and
`verifyChecksum` accepts exactly the checksum recomputed over the received
items. -/
theorem checksum_deterministic_and_tamper_evident :
    (∀ items : List SyncQueueItem, calculateChecksum items = calculateChecksum items) ∧
    (∀ (pre suf : List SyncQueueItem) (it it2 : SyncQueueItem),
      itemChunk it ≠ itemChunk it2 →
      checksumPreimage (pre ++ it :: suf) ≠ checksumPreimage (pre ++ it2 :: suf)) ∧
    (∀ (it : SyncQueueItem) (id2 : String), id2 ≠ it.id →
      itemChunk { it with id := id2 } ≠ itemChunk it) ∧
    (∀ (it : SyncQueueItem) (d2 : String), d2 ≠ it.data →
      itemChunk { it with data := d2 } ≠ itemChunk it) ∧
    (∀ (items : List SyncQueueItem) (cs : String),
      verifyChecksum items cs = true ↔ calculateChecksum items = cs) := by
  refine ⟨fun items => rfl, ?_, ?_, ?_, ?_⟩
  · intro pre suf it it2 hne h
    apply hne
    have hsplit : checksumPreimage pre ++ (itemChunk it ++ checksumPreimage suf) =
        checksumPreimage pre ++ (itemChunk it2 ++ checksumPreimage suf) := by
      simpa [checksumPreimage, List.map_append, List.flatten_append,
        List.append_assoc] using h
    exact List.append_cancel_right (List.append_cancel_left hsplit)
  · intro it id2 hne h
    apply hne
    simp only [itemChunk] at h
    have hd := List.append_cancel_right h
    exact String.ext hd
  · intro it d2 hne h
    apply hne
    simp only [itemChunk] at h
    have hd := List.append_cancel_left h
    exact jsonQuote_inj _ _ (String.ext hd)
  · intro items cs
    simp [verifyChecksum]

/-- Witness for the amended C4: two concrete single-item batches differing
only in the item's identifier, and two differing only in the payload, have
different pre-images. -/
theorem checksum_tamper_evident_witness :
    checksumPreimage [⟨"a", "T", Op.create, "p", 0, none, 0⟩] ≠
      checksumPreimage [⟨"b", "T", Op.create, "p", 0, none, 0⟩] ∧
    checksumPreimage [⟨"a", "T", Op.create, "p", 0, none, 0⟩] ≠
      checksumPreimage [⟨"a", "T", Op.create, "q", 0, none, 0⟩] := by
  constructor
  · have h := checksum_deterministic_and_tamper_evident.2.1 [] []
      ⟨"a", "T", Op.create, "p", 0, none, 0⟩ ⟨"b", "T", Op.create, "p", 0, none, 0⟩
      (by decide)
    simpa using h
  · have h := checksum_deterministic_and_tamper_evident.2.1 [] []
      ⟨"a", "T", Op.create, "p", 0, none, 0⟩ ⟨"a", "T", Op.create, "q", 0, none, 0⟩
      (by decide)
    simpa using h

end TaskSync
